import Mathlib

/-!
Verification of the transition scheduling / mix-preview rendering engine of
DJMashAI (frontend/src/App.jsx: playPreview, stopPreview, gainAtMixTime and
the mix-timeline computation).

All JS numbers are modelled as rationals (ℚ).  Audio-context times are
expressed relative to the reference instant captured at play() time
(the JS variable `now = ctx.currentTime`), so a context time `now + x`
is modelled as the offset `x`.
-/

namespace DJMashAI

/-- One entry of mixPlan.transitions, as consumed by App.jsx.  Fields that the
code reads with a null/undefined check or a default are Options. -/
structure TransitionPlan where
  transition_start_time : Option ℚ := none
  transition_end_time : Option ℚ := none
  crossfade_duration_sec : Option ℚ := none
  transition_sound : Option String := none
  incoming_start_offset : Option ℚ := none
deriving DecidableEq

instance : Inhabited TransitionPlan := ⟨{}⟩

/-- Inputs of one playPreview run after decoding: the transitions array, the
decoded buffer durations (buffers[i].duration, in track order), and the
"Start from first transition" checkbox (previewStartFromFirstTransition). -/
structure PreviewInput where
  transitions : List TransitionPlan
  durations : List ℚ
  skipMode : Bool
deriving DecidableEq

/-- Array access transitions[i]; out-of-range access is mapped to the
all-default plan (the JS code only indexes in range on well-formed plans). -/
def trAt (ts : List TransitionPlan) (i : ℕ) : TransitionPlan :=
  ts.getD i default

/-- The loop of App.jsx lines 219-222 (and 476-481), with a generalized
starting accumulator: mixStartTime starts as [acc] and each transition
appends previous + (transition_start_time ?? 0). -/
def mixStartTimeFrom (acc : ℚ) : List TransitionPlan → List ℚ
  | [] => [acc]
  | tr :: rest => acc :: mixStartTimeFrom (acc + tr.transition_start_time.getD 0) rest

/-- Absolute mix-timeline start offsets: mixStartTime[0] = 0 and
mixStartTime[i+1] = mixStartTime[i] + (transitions[i].transition_start_time ?? 0). -/
def mixStartTime (ts : List TransitionPlan) : List ℚ :=
  mixStartTimeFrom 0 ts

/-- The UI mix timeline (App.jsx lines 474-482): same recurrence, but an empty
transitions list yields [0] only when there is at least one ordered track. -/
def mixStartTimeSec (ts : List TransitionPlan) (numTracks : ℕ) : List ℚ :=
  if 0 < ts.length then mixStartTime ts
  else if 0 < numTracks then [0] else []

/-- Total mix duration (App.jsx lines 483-487): last start offset plus the
last ordered track's duration, guarded by the length agreement check. -/
def mixDurationSec (ts : List TransitionPlan) (durs : List ℚ) : ℚ :=
  let mst := mixStartTimeSec ts durs.length
  if 0 < durs.length ∧ mst.length = durs.length then
    mst.getD (mst.length - 1) 0 + durs.getD (durs.length - 1) 0
  else 0

lemma mixStartTimeFrom_length (acc : ℚ) (ts : List TransitionPlan) :
    (mixStartTimeFrom acc ts).length = ts.length + 1 := by
  induction ts generalizing acc with
  | nil => rfl
  | cons tr rest ih => simp [mixStartTimeFrom, ih]

lemma mixStartTime_length (ts : List TransitionPlan) :
    (mixStartTime ts).length = ts.length + 1 :=
  mixStartTimeFrom_length 0 ts

lemma mixStartTimeFrom_getD_zero (acc : ℚ) (ts : List TransitionPlan) :
    (mixStartTimeFrom acc ts).getD 0 0 = acc := by
  cases ts <;> rfl

lemma mixStartTimeFrom_getD_succ (ts : List TransitionPlan) (acc : ℚ) (i : ℕ)
    (h : i < ts.length) :
    (mixStartTimeFrom acc ts).getD (i + 1) 0 =
      (mixStartTimeFrom acc ts).getD i 0 +
        (trAt ts i).transition_start_time.getD 0 := by
  induction ts generalizing acc i with
  | nil => simp at h
  | cons tr rest ih =>
    cases i with
    | zero =>
      simp only [mixStartTimeFrom, List.getD_cons_succ, List.getD_cons_zero,
        trAt, List.getD]
      exact mixStartTimeFrom_getD_zero _ rest
    | succ j =>
      have hj : j < rest.length := by simpa using h
      have := ih (acc + tr.transition_start_time.getD 0) j hj
      simp only [mixStartTimeFrom, List.getD_cons_succ, trAt, List.getD] at this ⊢
      exact this

lemma mixStartTime_getD_succ (ts : List TransitionPlan) (i : ℕ)
    (h : i < ts.length) :
    (mixStartTime ts).getD (i + 1) 0 =
      (mixStartTime ts).getD i 0 + (trAt ts i).transition_start_time.getD 0 :=
  mixStartTimeFrom_getD_succ ts 0 i h

/-- C1: absolute mix-timeline start offsets satisfy absoluteStartTime[0] = 0
and absoluteStartTime[i] = absoluteStartTime[i-1] + transitions[i-1].transitionStartTime
(missing values treated as 0), and the total mix duration equals
absoluteStartTime[last] + durationSec(order[last]). -/
theorem mixStartTime_spec (ts : List TransitionPlan) (durs : List ℚ)
    (hwf : durs.length = ts.length + 1) :
    (mixStartTime ts).getD 0 0 = 0 ∧
    (∀ i : ℕ, 0 < i → i ≤ ts.length →
      (mixStartTime ts).getD i 0 =
        (mixStartTime ts).getD (i - 1) 0 +
          (trAt ts (i - 1)).transition_start_time.getD 0) ∧
    mixDurationSec ts durs =
      (mixStartTime ts).getD (durs.length - 1) 0 +
        durs.getD (durs.length - 1) 0 := by
  refine ⟨mixStartTimeFrom_getD_zero 0 ts, ?_, ?_⟩
  · intro i hpos hle
    obtain ⟨j, rfl⟩ : ∃ j, i = j + 1 := ⟨i - 1, (Nat.succ_pred_eq_of_pos hpos).symm⟩
    have hj : j < ts.length := by omega
    simpa using mixStartTime_getD_succ ts j hj
  · by_cases hts : 0 < ts.length
    · have hlen : (mixStartTimeSec ts durs.length).length = durs.length := by
        simp [mixStartTimeSec, hts, mixStartTime_length, hwf]
      have hpos : 0 < durs.length := by omega
      simp only [mixDurationSec, mixStartTimeSec, hts, if_true, hpos, hlen,
        mixStartTime_length, hwf, and_self, if_true, true_and]
      simp [mixStartTime_length, hwf]
    · have hts0 : ts.length = 0 := by omega
      have hts' : ts = [] := List.length_eq_zero.mp hts0
      subst hts'
      simp [mixDurationSec, mixStartTimeSec, hwf, mixStartTime,
        mixStartTimeFrom]

/-- Scenario A input: transitions with start times 150 and 140 and crossfades
16 and 12, over tracks of durations 200, 180, 220. -/
def scenarioA : List TransitionPlan :=
  [{ transition_start_time := some 150, crossfade_duration_sec := some 16 },
   { transition_start_time := some 140, crossfade_duration_sec := some 12 }]

/-- Scenario A durations. -/
def scenarioADurs : List ℚ := [200, 180, 220]

/-- C1 witness: scenario A gives offsets [0, 150, 290] and total duration 510. -/
theorem mixStartTime_spec_witness :
    (mixStartTime scenarioA).getD 0 0 = 0 ∧
    mixStartTime scenarioA = [0, 150, 290] ∧
    mixDurationSec scenarioA scenarioADurs = 510 :=
  ⟨(mixStartTime_spec scenarioA scenarioADurs (by decide)).1,
   by norm_num [mixStartTime, mixStartTimeFrom, scenarioA],
   by norm_num [mixDurationSec, mixStartTimeSec, mixStartTime, mixStartTimeFrom,
     scenarioA, scenarioADurs]⟩

/-- Skip offset (App.jsx lines 223-224): when the "start from first
transition" box is ticked and there is at least one transition, playback
skips to mixStartTime[1]; otherwise 0. -/
def skipTo (inp : PreviewInput) : ℚ :=
  if inp.skipMode = true ∧ 1 < (mixStartTime inp.transitions).length then
    (mixStartTime inp.transitions).getD 1 0
  else 0

/-- Start offset of track position i on the mix timeline. -/
def startMixOf (inp : PreviewInput) (i : ℕ) : ℚ :=
  (mixStartTime inp.transitions).getD i 0

/-- Decoded duration of the buffer at track position i. -/
def durOf (inp : PreviewInput) (i : ℕ) : ℚ :=
  inp.durations.getD i 0

/-- Segment inclusion test (App.jsx line 272): a segment is scheduled unless
its window ends at or before the skip offset (endMix <= skipTo yields
continue). -/
abbrev included (inp : PreviewInput) (i : ℕ) : Prop :=
  skipTo inp < startMixOf inp i + durOf inp i

/-- Buffer start offset of segment i (App.jsx lines 285-291): a present
incoming_start_offset on the preceding transition wins outright; otherwise
the offset catches up to the skip point for windows that began before it. -/
def bufferOffset (inp : PreviewInput) (i : ℕ) : ℚ :=
  if 0 < i ∧ ((trAt inp.transitions (i - 1)).incoming_start_offset).isSome then
    ((trAt inp.transitions (i - 1)).incoming_start_offset).getD 0
  else if startMixOf inp i < skipTo inp then skipTo inp - startMixOf inp i
  else 0

/-- Context-time start of segment i relative to the reference instant
(App.jsx line 293): max(0, startMix - skipTo). -/
def startCtx (inp : PreviewInput) (i : ℕ) : ℚ :=
  if skipTo inp ≤ startMixOf inp i then startMixOf inp i - skipTo inp else 0

/-- Clamp bound for the outgoing stop (App.jsx lines 298-302):
transition_end_time, defaulting to transition_start_time + (crossfade ?? 8). -/
def tEndOf (inp : PreviewInput) (i : ℕ) : ℚ :=
  match (trAt inp.transitions i).transition_end_time with
  | some e => e
  | none =>
      (trAt inp.transitions i).transition_start_time.getD 0 +
        (trAt inp.transitions i).crossfade_duration_sec.getD 8

/-- Scheduled play duration of segment i (App.jsx lines 292-306): the full
remaining buffer, clamped for non-last tracks with a transition to
min(dur - bufferOffset, max(0, tEnd - bufferOffset)). -/
def playDuration (inp : PreviewInput) (i : ℕ) : ℚ :=
  if i + 1 < inp.durations.length ∧ i < inp.transitions.length then
    min (durOf inp i - bufferOffset inp i)
      (max 0 (tEndOf inp i - bufferOffset inp i))
  else durOf inp i - bufferOffset inp i

/-- Crossfade-in length of segment i (App.jsx line 309):
min(crossfade ?? 8, dur - bufferOffset) for incoming tracks, 0 for the first. -/
def crossfadeInSec (inp : PreviewInput) (i : ℕ) : ℚ :=
  if 0 < i then
    min ((trAt inp.transitions (i - 1)).crossfade_duration_sec.getD 8)
      (durOf inp i - bufferOffset inp i)
  else 0

/-- Mix-time start of the transition out of segment i (App.jsx line 310). -/
def rampStart (inp : PreviewInput) (i : ℕ) : ℚ :=
  if i < inp.transitions.length then
    startMixOf inp i + (trAt inp.transitions i).transition_start_time.getD 0
  else startMixOf inp i

/-- Mix-time end of the transition out of segment i (App.jsx lines 311-316):
an explicit transition_end_time is used as given; otherwise rampStart plus
the crossfade clipped to the remaining buffer after transition start. -/
def rampEnd (inp : PreviewInput) (i : ℕ) : ℚ :=
  if i < inp.transitions.length then
    match (trAt inp.transitions i).transition_end_time with
    | some e => e
    | none =>
        rampStart inp i +
          min ((trAt inp.transitions i).crossfade_duration_sec.getD 8)
            (durOf inp i - (trAt inp.transitions i).transition_start_time.getD 0)
  else rampStart inp i

/-- Value of the out-ramp branch shared by gainAtMixTime (App.jsx lines
246-251 and 256-261): 1 before rampStart, 0 from rampEnd on, linear between. -/
def rampOutValue (tStart cf dur startMix t : ℚ) : ℚ :=
  if t < startMix + tStart then 1
  else if startMix + tStart + min cf (dur - tStart) ≤ t then 0
  else 1 - (t - (startMix + tStart)) / min cf (dur - tStart)

/-- Planned gain of track position i at mix time t (App.jsx lines 240-262):
0 outside the window, ramp-in for incoming tracks over min(crossfade ?? 8, dur),
1 in the middle, ramp-out over the track's own transition window. -/
def gainAtMixTime (inp : PreviewInput) (i : ℕ) (t : ℚ) : ℚ :=
  if t < startMixOf inp i ∨ startMixOf inp i + durOf inp i ≤ t then 0
  else if i = 0 then
    if inp.transitions.length = 0 then 1
    else
      rampOutValue ((trAt inp.transitions 0).transition_start_time.getD 0)
        ((trAt inp.transitions 0).crossfade_duration_sec.getD 8)
        (durOf inp i) (startMixOf inp i) t
  else
    if t < startMixOf inp i +
        min ((trAt inp.transitions (i - 1)).crossfade_duration_sec.getD 8)
          (durOf inp i) then
      (t - startMixOf inp i) /
        min ((trAt inp.transitions (i - 1)).crossfade_duration_sec.getD 8)
          (durOf inp i)
    else if inp.transitions.length ≤ i then 1
    else
      rampOutValue ((trAt inp.transitions i).transition_start_time.getD 0)
        ((trAt inp.transitions i).crossfade_duration_sec.getD 8)
        (durOf inp i) (startMixOf inp i) t

/-- One scheduled linear automation ramp: value v0 at context time t0 ramping
linearly to value v1 at context time t1 (times relative to the reference
instant). -/
structure Ramp where
  t0 : ℚ
  v0 : ℚ
  t1 : ℚ
  v1 : ℚ
deriving DecidableEq

/-- Gain-in automation of segment i (App.jsx lines 335-338): for incoming
tracks whose window starts at or after the skip point, gain is set to 0 at
startCtx and ramps to 1 over crossfadeInSec. -/
def gainInRamp (inp : PreviewInput) (i : ℕ) : Option Ramp :=
  if 0 < i ∧ skipTo inp ≤ startMixOf inp i then
    some ⟨startCtx inp i, 0, startCtx inp i + crossfadeInSec inp i, 1⟩
  else none

/-- Gain-out automation of segment i (App.jsx lines 339-344): for non-last
tracks with a transition whose rampEnd lies after the skip point, gain is
held at 1 at toCtx(rampStart) and ramps to 0 at toCtx(rampEnd). -/
def gainOutRamp (inp : PreviewInput) (i : ℕ) : Option Ramp :=
  if i + 1 < inp.durations.length ∧ i < inp.transitions.length ∧
      skipTo inp < rampEnd inp i then
    some ⟨rampStart inp i - skipTo inp, 1, rampEnd inp i - skipTo inp, 0⟩
  else none

/-- Low-pass opening sweep of an incoming segment (App.jsx lines 319-323):
corner frequency 500 at startCtx ramping to 20000 over crossfadeInSec. -/
def filterInSweep (inp : PreviewInput) (i : ℕ) : Option Ramp :=
  if 0 < i ∧ skipTo inp ≤ startMixOf inp i then
    some ⟨startCtx inp i, 500, startCtx inp i + crossfadeInSec inp i, 20000⟩
  else none

/-- High-pass closing sweep of an outgoing segment (App.jsx lines 324-328):
corner frequency 30 at toCtx(rampStart) ramping to 1800 at toCtx(rampEnd). -/
def filterOutSweep (inp : PreviewInput) (i : ℕ) : Option Ramp :=
  if i + 1 < inp.durations.length ∧ i < inp.transitions.length ∧
      skipTo inp < rampEnd inp i then
    some ⟨rampStart inp i - skipTo inp, 30, rampEnd inp i - skipTo inp, 1800⟩
  else none

/-- ASCII lowercase on the character data, modelling String.toLowerCase. -/
def toLowerStr (s : String) : String := ⟨s.data.map Char.toLower⟩

/-- Effect-sound key of a transition (App.jsx lines 229 and 355):
(transition_sound || "whoosh").toLowerCase(), so a missing or empty sound
falls back to "whoosh". -/
def soundType (tr : TransitionPlan) : String :=
  toLowerStr (match tr.transition_sound with
    | some s => if s = "" then "whoosh" else s
    | none => "whoosh")

/-- Cue placement for transitions[i] (App.jsx lines 354-364): skipped when the
sound is "none" or no decoded clip is available (avail models the sfxCache
fetch/decode outcome), dropped when its time is before the reference instant;
otherwise one cue at toCtx(mixStartTime[i+1]) keyed by the sound. -/
def cueAt (inp : PreviewInput) (avail : String → Bool) (i : ℕ) :
    Option (ℚ × String) :=
  if soundType (trAt inp.transitions i) = "none" ∨
      avail (soundType (trAt inp.transitions i)) = false then none
  else if (mixStartTime inp.transitions).getD (i + 1) 0 - skipTo inp < 0 then
    none
  else
    some ((mixStartTime inp.transitions).getD (i + 1) 0 - skipTo inp,
      soundType (trAt inp.transitions i))

/-- All scheduled effect cues, one loop pass per transition (App.jsx line 354). -/
def sfxCues (inp : PreviewInput) (avail : String → Bool) : List (ℚ × String) :=
  (List.range inp.transitions.length).filterMap (cueAt inp avail)

/-- One realized track segment: source index, context start time relative to
the reference instant, buffer seek offset, scheduled play duration, and hard
stop time (App.jsx lines 346-347). -/
structure Segment where
  trackIndex : ℕ
  startAt : ℚ
  offset : ℚ
  duration : ℚ
  stopAt : ℚ
deriving DecidableEq

/-- The per-track scheduling loop of App.jsx lines 268-352, restricted to the
data it realizes: one segment per track whose window survives the skip test. -/
def segmentsOf (inp : PreviewInput) : List Segment :=
  (List.range inp.durations.length).filterMap (fun i =>
    if included inp i then
      some ⟨i, startCtx inp i, bufferOffset inp i, playDuration inp i,
        startCtx inp i + playDuration inp i⟩
    else none)

/-- Sequential decode of every track's bytes (App.jsx lines 206-212): each
entry is some duration on success, none on a decode failure; the loop result
is all durations or a failure. -/
def decodeBuffers : List (Option ℚ) → Option (List ℚ)
  | [] => some []
  | none :: _ => none
  | some d :: rest => (decodeBuffers rest).map (fun l => d :: l)

/-- Observable outcome of one playPreview call: whether scheduling was
reached, the scheduled segments and cues, whether the audio context is still
open, and whether previewError was set. -/
structure PlayResult where
  startedOk : Bool
  segments : List Segment
  sfx : List (ℚ × String)
  ctxOpen : Bool
  errorSet : Bool

/-- The playPreview call (App.jsx lines 195-368) after source-file checks: a
decode failure aborts the whole call, closes the context and schedules
nothing (lines 213-217); otherwise every surviving segment and cue is
scheduled against the fresh context. -/
def playPreview (ts : List TransitionPlan) (decodes : List (Option ℚ))
    (skipMode : Bool) (avail : String → Bool) : PlayResult :=
  match decodeBuffers decodes with
  | none => ⟨false, [], [], false, true⟩
  | some durs =>
      ⟨true, segmentsOf ⟨ts, durs, skipMode⟩,
        sfxCues ⟨ts, durs, skipMode⟩ avail, true, false⟩

/-- Transport state owned by the preview player: the scheduled sources
(scheduledSourcesRef), whether the audio context is open (audioContextRef),
the playing flag, plus instrumentation observing the side effects: how many
times close() ran on an open context, and which sources received stop(). -/
structure PlayerState where
  scheduledSources : List ℕ
  ctxOpen : Bool
  isPreviewPlaying : Bool
  closeCount : ℕ
  stopCalls : List ℕ
deriving DecidableEq

/-- The stopPreview call (App.jsx lines 182-193): stop() every scheduled
source (each call guarded by try/catch), clear the list, close the context
only when one is open and null the ref, and reset the flags. -/
def stopPreview (st : PlayerState) : PlayerState :=
  { scheduledSources := []
    ctxOpen := false
    isPreviewPlaying := false
    closeCount := st.closeCount + (if st.ctxOpen then 1 else 0)
    stopCalls := st.stopCalls ++ st.scheduledSources }

/-- Default-filling map used to state the crossfade-default claim: an absent
crossfade_duration_sec is replaced by the explicit literal 8 that every
(crossfade_duration_sec ?? 8) site falls back to. -/
def withDefaultCrossfade (tr : TransitionPlan) : TransitionPlan :=
  { tr with crossfade_duration_sec := some (tr.crossfade_duration_sec.getD 8) }

lemma decodeBuffers_eq_none {decodes : List (Option ℚ)}
    (h : none ∈ decodes) : decodeBuffers decodes = none := by
  induction decodes with
  | nil => simp at h
  | cons d rest ih =>
    cases d with
    | none => rfl
    | some x =>
      have : none ∈ rest := by
        rcases List.mem_cons.mp h with h1 | h1
        · exact absurd h1 (by simp)
        · exact h1
      simp [decodeBuffers, ih this]

/-- A segment produced by the scheduling loop always records the loop index
of an included track. -/
lemma mem_segmentsOf {inp : PreviewInput} {s : Segment}
    (h : s ∈ segmentsOf inp) :
    s.trackIndex < inp.durations.length ∧ included inp s.trackIndex := by
  simp only [segmentsOf, List.mem_filterMap, List.mem_range] at h
  obtain ⟨i, hi, hs⟩ := h
  by_cases hinc : included inp i
  · simp only [hinc, if_true, Option.some.injEq] at hs
    subst hs
    exact ⟨hi, hinc⟩
  · simp [hinc] at hs

/-- C4: a present incomingStartOffset on the transition into track position i
fixes the segment's bufferOffset to exactly that value, overriding any
skip-derived default regardless of the skip-mode state. -/
theorem bufferOffset_override (inp : PreviewInput) (i : ℕ) (v : ℚ)
    (hi : 0 < i)
    (hov : (trAt inp.transitions (i - 1)).incoming_start_offset = some v) :
    bufferOffset inp i = v := by
  simp [bufferOffset, hi, hov]

/-- Scenario C input with the skip checkbox as a parameter: a transition
carrying incoming_start_offset = 12.5 into a 180-second second track. -/
def scenarioC (sk : Bool) : PreviewInput :=
  ⟨[{ transition_start_time := some 150, crossfade_duration_sec := some 16,
      incoming_start_offset := some (25 / 2) }], [200, 180], sk⟩

/-- C4 witness: incomingStartOffset = 12.5 yields bufferOffset = 12.5 with
skip mode on and with skip mode off. -/
theorem bufferOffset_override_witness :
    bufferOffset (scenarioC true) 1 = 25 / 2 ∧
    bufferOffset (scenarioC false) 1 = 25 / 2 :=
  ⟨bufferOffset_override (scenarioC true) 1 (25 / 2) (by decide) rfl,
   bufferOffset_override (scenarioC false) 1 (25 / 2) (by decide) rfl⟩

/-- Counterexample input for C5: skip mode pushes the first segment's
bufferOffset (150) past its explicit transition_end_time (100), and the
second segment's incoming_start_offset (300) exceeds its 180-second buffer. -/
def exC5 : PreviewInput :=
  ⟨[{ transition_start_time := some 150, transition_end_time := some 100,
      crossfade_duration_sec := some 16, incoming_start_offset := some 300 },
    { transition_start_time := some 140, crossfade_duration_sec := some 12 }],
   [200, 180, 220], true⟩

/-- C5 counterexample: the claim fails as stated.  At exC5 the clamped
playDuration of segment 0 is 0, which is not at most
transitionEndTime - bufferOffset = -50; and the playDuration of segment 1 is
-120, which is negative. -/
theorem playDuration_claim_cex :
    ¬ (playDuration exC5 0 ≤ tEndOf exC5 0 - bufferOffset exC5 0) ∧
    ¬ ((0 : ℚ) ≤ playDuration exC5 1) := by
  norm_num [playDuration, tEndOf, bufferOffset, durOf, startMixOf, skipTo,
    exC5, trAt, mixStartTime, mixStartTimeFrom]

/-- C5 amended: for every non-last track position with a transition out, the
scheduled playDuration is at most max(0, transitionEndTime - bufferOffset)
(transitionEndTime defaulting to transitionStartTime + crossfadeDurationSec):
the clamp bound itself floors at 0 rather than erroring, and playDuration is
nonnegative whenever bufferOffset does not exceed the buffer duration. -/
theorem playDuration_clamp (inp : PreviewInput) (i : ℕ)
    (h1 : i + 1 < inp.durations.length) (h2 : i < inp.transitions.length) :
    playDuration inp i ≤ max 0 (tEndOf inp i - bufferOffset inp i) ∧
    (bufferOffset inp i ≤ durOf inp i → 0 ≤ playDuration inp i) := by
  constructor
  · simp only [playDuration, h1, h2, and_self, if_true]
    exact min_le_right _ _
  · intro hb
    simp only [playDuration, h1, h2, and_self, if_true]
    exact le_min (by linarith) (le_max_left _ _)

/-- C5 witness: the amended clamp evaluated on scenario A at segment 0. -/
theorem playDuration_clamp_witness :
    playDuration ⟨scenarioA, scenarioADurs, false⟩ 0 ≤
      max 0 (tEndOf ⟨scenarioA, scenarioADurs, false⟩ 0 -
        bufferOffset ⟨scenarioA, scenarioADurs, false⟩ 0) ∧
    (bufferOffset ⟨scenarioA, scenarioADurs, false⟩ 0 ≤
        durOf ⟨scenarioA, scenarioADurs, false⟩ 0 →
      0 ≤ playDuration ⟨scenarioA, scenarioADurs, false⟩ 0) :=
  playDuration_clamp ⟨scenarioA, scenarioADurs, false⟩ 0 (by decide) (by decide)

/-- C7: in skip mode no segment starts before the reference instant; a window
ending at or before the skip offset is omitted entirely; a window straddling
the skip offset is included, starts at the reference instant, has its
bufferOffset advanced to the skip point unless an incomingStartOffset
overrides it, and plays at most the remaining shortened duration. -/
theorem skip_mode_spec (inp : PreviewInput) (i : ℕ) :
    (startMixOf inp i + durOf inp i ≤ skipTo inp →
      ∀ s ∈ segmentsOf inp, s.trackIndex ≠ i) ∧
    0 ≤ startCtx inp i ∧
    (startMixOf inp i < skipTo inp →
      skipTo inp < startMixOf inp i + durOf inp i →
      included inp i) ∧
    (startMixOf inp i < skipTo inp →
      (0 < i → (trAt inp.transitions (i - 1)).incoming_start_offset = none) →
      bufferOffset inp i = skipTo inp - startMixOf inp i ∧
      startCtx inp i = 0 ∧
      playDuration inp i ≤ durOf inp i - (skipTo inp - startMixOf inp i)) := by
  refine ⟨?_, ?_, fun _ h => h, ?_⟩
  · intro hend s hs heq
    have hinc := (mem_segmentsOf hs).2
    rw [heq] at hinc
    simp only [included] at hinc
    linarith
  · unfold startCtx
    split_ifs with h
    · linarith
    · exact le_refl 0
  · intro hlt hov
    have hb : bufferOffset inp i = skipTo inp - startMixOf inp i := by
      unfold bufferOffset
      have hcond : ¬ (0 < i ∧
          ((trAt inp.transitions (i - 1)).incoming_start_offset).isSome = true) := by
        rintro ⟨hpos, hsome⟩
        rw [hov hpos] at hsome
        simp at hsome
      rw [if_neg hcond, if_pos hlt]
    refine ⟨hb, ?_, ?_⟩
    · unfold startCtx
      rw [if_neg (by linarith)]
    · have : playDuration inp i ≤ durOf inp i - bufferOffset inp i := by
        unfold playDuration
        split_ifs with h
        · exact min_le_left _ _
        · exact le_refl _
      rw [hb] at this
      exact this

/-- C7 witness: skip mode on scenario A with an extra straddling check at
segment 0 and omitted-window check vacuous at segment 0. -/
theorem skip_mode_spec_witness :
    0 ≤ startCtx ⟨scenarioA, scenarioADurs, true⟩ 0 ∧
    (startMixOf ⟨scenarioA, scenarioADurs, true⟩ 0 <
        skipTo ⟨scenarioA, scenarioADurs, true⟩ →
      (0 < 0 → (trAt scenarioA (0 - 1)).incoming_start_offset = none) →
      bufferOffset ⟨scenarioA, scenarioADurs, true⟩ 0 =
        skipTo ⟨scenarioA, scenarioADurs, true⟩ -
          startMixOf ⟨scenarioA, scenarioADurs, true⟩ 0 ∧
      startCtx ⟨scenarioA, scenarioADurs, true⟩ 0 = 0 ∧
      playDuration ⟨scenarioA, scenarioADurs, true⟩ 0 ≤
        durOf ⟨scenarioA, scenarioADurs, true⟩ 0 -
          (skipTo ⟨scenarioA, scenarioADurs, true⟩ -
            startMixOf ⟨scenarioA, scenarioADurs, true⟩ 0)) :=
  ⟨(skip_mode_spec ⟨scenarioA, scenarioADurs, true⟩ 0).2.1,
   (skip_mode_spec ⟨scenarioA, scenarioADurs, true⟩ 0).2.2.2⟩

/-- C8: a decode failure for any track aborts the whole play() call before
any segment is realized: nothing is scheduled, no cue is placed, the fresh
audio context is closed and the error is surfaced. -/
theorem decode_abort (ts : List TransitionPlan) (decodes : List (Option ℚ))
    (skipMode : Bool) (avail : String → Bool) (h : none ∈ decodes) :
    (playPreview ts decodes skipMode avail).startedOk = false ∧
    (playPreview ts decodes skipMode avail).segments = [] ∧
    (playPreview ts decodes skipMode avail).sfx = [] ∧
    (playPreview ts decodes skipMode avail).ctxOpen = false ∧
    (playPreview ts decodes skipMode avail).errorSet = true := by
  unfold playPreview
  rw [decodeBuffers_eq_none h]
  exact ⟨rfl, rfl, rfl, rfl, rfl⟩

/-- C8 witness: a mix where the second track's bytes fail to decode schedules
nothing and releases the context. -/
theorem decode_abort_witness :
    (playPreview scenarioA [some 200, none, some 220] false
      (fun _ => true)).startedOk = false ∧
    (playPreview scenarioA [some 200, none, some 220] false
      (fun _ => true)).segments = [] ∧
    (playPreview scenarioA [some 200, none, some 220] false
      (fun _ => true)).sfx = [] ∧
    (playPreview scenarioA [some 200, none, some 220] false
      (fun _ => true)).ctxOpen = false ∧
    (playPreview scenarioA [some 200, none, some 220] false
      (fun _ => true)).errorSet = true :=
  decode_abort scenarioA [some 200, none, some 220] false (fun _ => true)
    (by simp)

/-- C9: stopPreview is idempotent and callable from any state: it clears
every scheduled segment and cue, delivers stop() to each of them, resets the
playing flag, and a second call changes nothing more -- in particular the
context close side effect happens exactly once across both calls. -/
theorem stopPreview_idempotent (st : PlayerState) :
    stopPreview (stopPreview st) = stopPreview st ∧
    (stopPreview st).scheduledSources = [] ∧
    (stopPreview st).ctxOpen = false ∧
    (stopPreview st).isPreviewPlaying = false ∧
    (stopPreview (stopPreview st)).closeCount =
      st.closeCount + (if st.ctxOpen then 1 else 0) ∧
    (∀ s ∈ st.scheduledSources, s ∈ (stopPreview st).stopCalls) := by
  refine ⟨?_, rfl, rfl, rfl, rfl, ?_⟩
  · simp [stopPreview]
  · intro s hs
    simp [stopPreview, hs]

/-- C9 witness: stopping twice from a playing state with two scheduled
sources and an open context. -/
theorem stopPreview_idempotent_witness :
    stopPreview (stopPreview ⟨[3, 7], true, true, 0, []⟩) =
      stopPreview ⟨[3, 7], true, true, 0, []⟩ ∧
    (stopPreview ⟨[3, 7], true, true, 0, []⟩).scheduledSources = [] ∧
    (stopPreview ⟨[3, 7], true, true, 0, []⟩).ctxOpen = false ∧
    (stopPreview ⟨[3, 7], true, true, 0, []⟩).isPreviewPlaying = false ∧
    (stopPreview (stopPreview ⟨[3, 7], true, true, 0, []⟩)).closeCount =
      0 + (if true then 1 else 0) ∧
    (∀ s ∈ [3, 7], s ∈ (stopPreview ⟨[3, 7], true, true, 0, []⟩).stopCalls) :=
  stopPreview_idempotent ⟨[3, 7], true, true, 0, []⟩

lemma rampOutValue_bounds (tStart cf dur startMix t : ℚ) :
    0 ≤ rampOutValue tStart cf dur startMix t ∧
      rampOutValue tStart cf dur startMix t ≤ 1 := by
  unfold rampOutValue
  split_ifs with h1 h2
  · norm_num
  · norm_num
  · push_neg at h1 h2
    have hc : 0 < min cf (dur - tStart) := by linarith
    have hge : 0 ≤ (t - (startMix + tStart)) / min cf (dur - tStart) :=
      div_nonneg (by linarith) hc.le
    have hlt : (t - (startMix + tStart)) / min cf (dur - tStart) < 1 := by
      rw [div_lt_one hc]
      linarith
    constructor <;> linarith

/-- Shared preview input used by witnesses: scenario A with skip mode off. -/
def inpA : PreviewInput := ⟨scenarioA, scenarioADurs, false⟩

/-- C2: planned gain values always lie within [0,1], and an incoming track
not affected by skip mode has its gain set to 0 at its own start and ramped
linearly to 1 over min(crossfadeDurationSec of the incoming transition,
buffer duration - bufferOffset) seconds. -/
theorem gain_spec (inp : PreviewInput) (i : ℕ)
    (hi : i < inp.durations.length)
    (hwf : inp.durations.length = inp.transitions.length + 1) :
    (∀ t : ℚ, 0 ≤ gainAtMixTime inp i t ∧ gainAtMixTime inp i t ≤ 1) ∧
    (0 < i → skipTo inp ≤ startMixOf inp i →
      gainInRamp inp i = some ⟨startCtx inp i, 0,
        startCtx inp i +
          min ((trAt inp.transitions (i - 1)).crossfade_duration_sec.getD 8)
            (durOf inp i - bufferOffset inp i), 1⟩) := by
  constructor
  · intro t
    unfold gainAtMixTime
    split_ifs with h1 h2 h3 h4 h5
    · norm_num
    · norm_num
    · exact rampOutValue_bounds _ _ _ _ _
    · push_neg at h1
      obtain ⟨hge, hlt⟩ := h1
      have hcpos :
          0 < min ((trAt inp.transitions (i - 1)).crossfade_duration_sec.getD 8)
            (durOf inp i) := by linarith
      constructor
      · exact div_nonneg (by linarith) hcpos.le
      · have := (div_lt_one hcpos).mpr (by linarith : t - startMixOf inp i <
          min ((trAt inp.transitions (i - 1)).crossfade_duration_sec.getD 8)
            (durOf inp i))
        linarith
    · norm_num
    · exact rampOutValue_bounds _ _ _ _ _
  · intro hpos hskip
    unfold gainInRamp crossfadeInSec
    rw [if_pos ⟨hpos, hskip⟩, if_pos hpos]

/-- C2 witness: the gain bound at segment 1 of scenario A at mix time 160,
and the exact gain-in ramp of that segment. -/
theorem gain_spec_witness :
    (0 ≤ gainAtMixTime inpA 1 160 ∧ gainAtMixTime inpA 1 160 ≤ 1) ∧
    gainInRamp inpA 1 = some ⟨startCtx inpA 1, 0,
      startCtx inpA 1 +
        min ((trAt inpA.transitions 0).crossfade_duration_sec.getD 8)
          (durOf inpA 1 - bufferOffset inpA 1), 1⟩ :=
  ⟨(gain_spec inpA 1 (by decide) (by decide)).1 160,
   (gain_spec inpA 1 (by decide) (by decide)).2 (by decide)
     (by norm_num [skipTo, startMixOf, inpA, scenarioA, scenarioADurs,
       mixStartTime, mixStartTimeFrom])⟩

/-- Counterexample input for C3: a two-track plan whose only transition
carries an explicit transition_end_time of 250, beyond the 200-second
outgoing buffer. -/
def exC3 : PreviewInput :=
  ⟨[{ transition_start_time := some 150, transition_end_time := some 250,
      crossfade_duration_sec := some 16 }], [200, 180], false⟩

/-- C3 counterexample: the claim fails as stated.  At exC3 the gain-out ramp
of segment 0 runs from 150 to rampEnd = 250, and 250 is not clipped to the
track's audible end 0 + 200. -/
theorem out_ramp_claim_cex :
    gainOutRamp exC3 0 = some ⟨150, 1, 250, 0⟩ ∧
    ¬ (rampEnd exC3 0 ≤ startMixOf exC3 0 + durOf exC3 0) := by
  norm_num [gainOutRamp, rampEnd, rampStart, startMixOf, durOf, skipTo, exC3,
    trAt, mixStartTime, mixStartTimeFrom]

/-- C3 amended: for every non-last track with a transition out (and a ramp
window surviving the skip test), the scheduled gain automation holds 1 at
rampStart = absoluteStartTime[i] + transitionStartTime and ramps linearly to
0 at rampEnd; an explicit transitionEndTime is used as given (not clipped),
and only the default rampEnd = rampStart + crossfadeDurationSec is clipped so
as not to exceed the track's audible end. -/
theorem out_ramp_spec (inp : PreviewInput) (i : ℕ)
    (h1 : i + 1 < inp.durations.length) (h2 : i < inp.transitions.length)
    (h3 : skipTo inp < rampEnd inp i) :
    gainOutRamp inp i =
      some ⟨rampStart inp i - skipTo inp, 1, rampEnd inp i - skipTo inp, 0⟩ ∧
    rampStart inp i =
      startMixOf inp i +
        (trAt inp.transitions i).transition_start_time.getD 0 ∧
    (∀ e : ℚ, (trAt inp.transitions i).transition_end_time = some e →
      rampEnd inp i = e) ∧
    ((trAt inp.transitions i).transition_end_time = none →
      rampEnd inp i = rampStart inp i +
        min ((trAt inp.transitions i).crossfade_duration_sec.getD 8)
          (durOf inp i -
            (trAt inp.transitions i).transition_start_time.getD 0) ∧
      rampEnd inp i ≤ startMixOf inp i + durOf inp i) := by
  refine ⟨?_, ?_, ?_, ?_⟩
  · unfold gainOutRamp
    rw [if_pos ⟨h1, h2, h3⟩]
  · unfold rampStart
    rw [if_pos h2]
  · intro e he
    unfold rampEnd
    rw [if_pos h2, he]
  · intro he
    have heq : rampEnd inp i = rampStart inp i +
        min ((trAt inp.transitions i).crossfade_duration_sec.getD 8)
          (durOf inp i -
            (trAt inp.transitions i).transition_start_time.getD 0) := by
      unfold rampEnd
      rw [if_pos h2, he]
    refine ⟨heq, ?_⟩
    have hmin : min ((trAt inp.transitions i).crossfade_duration_sec.getD 8)
        (durOf inp i - (trAt inp.transitions i).transition_start_time.getD 0) ≤
        durOf inp i - (trAt inp.transitions i).transition_start_time.getD 0 :=
      min_le_right _ _
    have hrs : rampStart inp i =
        startMixOf inp i +
          (trAt inp.transitions i).transition_start_time.getD 0 := by
      unfold rampStart
      rw [if_pos h2]
    rw [heq, hrs]
    linarith

/-- C3 witness: the amended out-ramp facts evaluated at segment 0 of
scenario A, whose transition has no explicit end time. -/
theorem out_ramp_spec_witness :
    gainOutRamp inpA 0 =
      some ⟨rampStart inpA 0 - skipTo inpA, 1,
        rampEnd inpA 0 - skipTo inpA, 0⟩ ∧
    rampStart inpA 0 =
      startMixOf inpA 0 +
        (trAt inpA.transitions 0).transition_start_time.getD 0 ∧
    (∀ e : ℚ, (trAt inpA.transitions 0).transition_end_time = some e →
      rampEnd inpA 0 = e) ∧
    ((trAt inpA.transitions 0).transition_end_time = none →
      rampEnd inpA 0 = rampStart inpA 0 +
        min ((trAt inpA.transitions 0).crossfade_duration_sec.getD 8)
          (durOf inpA 0 -
            (trAt inpA.transitions 0).transition_start_time.getD 0) ∧
      rampEnd inpA 0 ≤ startMixOf inpA 0 + durOf inpA 0) :=
  out_ramp_spec inpA 0 (by decide) (by decide)
    (by norm_num [rampEnd, rampStart, startMixOf, durOf, skipTo, inpA,
      scenarioA, scenarioADurs, trAt, mixStartTime, mixStartTimeFrom])

lemma cueAt_eq_some (inp : PreviewInput) (avail : String → Bool) (i : ℕ)
    (h1 : soundType (trAt inp.transitions i) ≠ "none")
    (h2 : avail (soundType (trAt inp.transitions i)) = true)
    (h3 : skipTo inp ≤ (mixStartTime inp.transitions).getD (i + 1) 0) :
    cueAt inp avail i =
      some ((mixStartTime inp.transitions).getD (i + 1) 0 - skipTo inp,
        soundType (trAt inp.transitions i)) := by
  unfold cueAt
  rw [if_neg, if_neg]
  · exact not_lt.mpr (by linarith)
  · push_neg
    exact ⟨h1, by simp [h2]⟩

lemma cueAt_eq_none (inp : PreviewInput) (avail : String → Bool) (i : ℕ)
    (h : soundType (trAt inp.transitions i) = "none" ∨
      (mixStartTime inp.transitions).getD (i + 1) 0 < skipTo inp) :
    cueAt inp avail i = none := by
  unfold cueAt
  rcases h with h | h
  · rw [if_pos (Or.inl h)]
  · split_ifs with hc1 hc2
    · rfl
    · rfl
    · exact absurd (by linarith) hc2

/-- C6: with a sound other than "none" and an available decoded clip, exactly
one cue is placed at absoluteStartTime[i+1] for transition i (time relative
to the reference instant); a "none" sound or a placement time in the past
relative to a mid-stream skip schedules no cue; all-"none" transitions
schedule zero cues. -/
theorem cue_spec (inp : PreviewInput) (avail : String → Bool) :
    (∀ i, soundType (trAt inp.transitions i) ≠ "none" →
      avail (soundType (trAt inp.transitions i)) = true →
      skipTo inp ≤ (mixStartTime inp.transitions).getD (i + 1) 0 →
      cueAt inp avail i =
        some ((mixStartTime inp.transitions).getD (i + 1) 0 - skipTo inp,
          soundType (trAt inp.transitions i))) ∧
    (∀ i, soundType (trAt inp.transitions i) = "none" ∨
        (mixStartTime inp.transitions).getD (i + 1) 0 < skipTo inp →
      cueAt inp avail i = none) ∧
    sfxCues inp avail =
      (List.range inp.transitions.length).filterMap (cueAt inp avail) ∧
    ((∀ tr ∈ inp.transitions, tr.transition_sound = some "none") →
      sfxCues inp avail = []) := by
  refine ⟨fun i h1 h2 h3 => cueAt_eq_some inp avail i h1 h2 h3,
    fun i h => cueAt_eq_none inp avail i h, rfl, fun hall => ?_⟩
  unfold sfxCues
  rw [List.filterMap_eq_nil_iff]
  intro i hi
  rw [List.mem_range] at hi
  apply cueAt_eq_none
  left
  have hmem : trAt inp.transitions i ∈ inp.transitions := by
    unfold trAt
    rw [List.getD_eq_getElem inp.transitions default hi]
    exact List.getElem_mem hi
  have hs := hall _ hmem
  unfold soundType
  rw [hs]
  decide

/-- Scenario D input: one transition whose transition_sound is "none". -/
def scenarioD : PreviewInput :=
  ⟨[{ transition_start_time := some 150, transition_sound := some "none" }],
   [200, 180], false⟩

/-- C6 witness: on scenario A with every clip available and no skip, cue 0 is
scheduled at mix time 150 with the default "whoosh" sound; and a plan with
transition_sound = "none" everywhere schedules zero cues. -/
theorem cue_spec_witness :
    cueAt inpA (fun _ => true) 0 =
      some ((mixStartTime inpA.transitions).getD 1 0 - skipTo inpA,
        soundType (trAt inpA.transitions 0)) ∧
    sfxCues scenarioD (fun _ => true) = [] :=
  ⟨(cue_spec inpA (fun _ => true)).1 0 (by decide) rfl
     (by norm_num [skipTo, inpA, scenarioA, mixStartTime, mixStartTimeFrom]),
   (cue_spec scenarioD (fun _ => true)).2.2.2 (by decide)⟩

lemma trAt_map (ts : List TransitionPlan) (i : ℕ) :
    (trAt (ts.map withDefaultCrossfade) i).transition_start_time =
      (trAt ts i).transition_start_time ∧
    (trAt (ts.map withDefaultCrossfade) i).transition_end_time =
      (trAt ts i).transition_end_time ∧
    (trAt (ts.map withDefaultCrossfade) i).transition_sound =
      (trAt ts i).transition_sound ∧
    (trAt (ts.map withDefaultCrossfade) i).incoming_start_offset =
      (trAt ts i).incoming_start_offset ∧
    (trAt (ts.map withDefaultCrossfade) i).crossfade_duration_sec.getD 8 =
      (trAt ts i).crossfade_duration_sec.getD 8 := by
  simp only [trAt, List.getD, List.get?_map]
  cases ts.get? i with
  | none => simp
  | some tr => simp [withDefaultCrossfade]

lemma trAt_map_start (ts : List TransitionPlan) (i : ℕ) :
    (trAt (ts.map withDefaultCrossfade) i).transition_start_time =
      (trAt ts i).transition_start_time := (trAt_map ts i).1

lemma trAt_map_end (ts : List TransitionPlan) (i : ℕ) :
    (trAt (ts.map withDefaultCrossfade) i).transition_end_time =
      (trAt ts i).transition_end_time := (trAt_map ts i).2.1

lemma trAt_map_sound (ts : List TransitionPlan) (i : ℕ) :
    (trAt (ts.map withDefaultCrossfade) i).transition_sound =
      (trAt ts i).transition_sound := (trAt_map ts i).2.2.1

lemma trAt_map_incoming (ts : List TransitionPlan) (i : ℕ) :
    (trAt (ts.map withDefaultCrossfade) i).incoming_start_offset =
      (trAt ts i).incoming_start_offset := (trAt_map ts i).2.2.2.1

lemma trAt_map_cf8 (ts : List TransitionPlan) (i : ℕ) :
    (trAt (ts.map withDefaultCrossfade) i).crossfade_duration_sec.getD 8 =
      (trAt ts i).crossfade_duration_sec.getD 8 := (trAt_map ts i).2.2.2.2

lemma mixStartTimeFrom_map (acc : ℚ) (ts : List TransitionPlan) :
    mixStartTimeFrom acc (ts.map withDefaultCrossfade) =
      mixStartTimeFrom acc ts := by
  induction ts generalizing acc with
  | nil => rfl
  | cons tr rest ih =>
    simp only [List.map_cons, mixStartTimeFrom, withDefaultCrossfade]
    rw [ih]

lemma mixStartTime_map (ts : List TransitionPlan) :
    mixStartTime (ts.map withDefaultCrossfade) = mixStartTime ts :=
  mixStartTimeFrom_map 0 ts

lemma skipTo_map (ts : List TransitionPlan) (durs : List ℚ) (sk : Bool) :
    skipTo ⟨ts.map withDefaultCrossfade, durs, sk⟩ = skipTo ⟨ts, durs, sk⟩ := by
  unfold skipTo
  dsimp only
  rw [mixStartTime_map]

lemma startMixOf_map (ts : List TransitionPlan) (durs : List ℚ) (sk : Bool)
    (i : ℕ) :
    startMixOf ⟨ts.map withDefaultCrossfade, durs, sk⟩ i =
      startMixOf ⟨ts, durs, sk⟩ i := by
  unfold startMixOf
  dsimp only
  rw [mixStartTime_map]

lemma durOf_map (ts : List TransitionPlan) (durs : List ℚ) (sk : Bool)
    (i : ℕ) :
    durOf ⟨ts.map withDefaultCrossfade, durs, sk⟩ i =
      durOf ⟨ts, durs, sk⟩ i := rfl

lemma bufferOffset_map (ts : List TransitionPlan) (durs : List ℚ) (sk : Bool)
    (i : ℕ) :
    bufferOffset ⟨ts.map withDefaultCrossfade, durs, sk⟩ i =
      bufferOffset ⟨ts, durs, sk⟩ i := by
  unfold bufferOffset
  dsimp only
  simp only [trAt_map_incoming, startMixOf_map, skipTo_map]

lemma startCtx_map (ts : List TransitionPlan) (durs : List ℚ) (sk : Bool)
    (i : ℕ) :
    startCtx ⟨ts.map withDefaultCrossfade, durs, sk⟩ i =
      startCtx ⟨ts, durs, sk⟩ i := by
  unfold startCtx
  simp only [startMixOf_map, skipTo_map]

lemma tEndOf_map (ts : List TransitionPlan) (durs : List ℚ) (sk : Bool)
    (i : ℕ) :
    tEndOf ⟨ts.map withDefaultCrossfade, durs, sk⟩ i =
      tEndOf ⟨ts, durs, sk⟩ i := by
  unfold tEndOf
  dsimp only
  rw [trAt_map_end, trAt_map_start, trAt_map_cf8]

lemma crossfadeInSec_map (ts : List TransitionPlan) (durs : List ℚ)
    (sk : Bool) (i : ℕ) :
    crossfadeInSec ⟨ts.map withDefaultCrossfade, durs, sk⟩ i =
      crossfadeInSec ⟨ts, durs, sk⟩ i := by
  unfold crossfadeInSec
  dsimp only
  simp only [trAt_map_cf8, durOf_map, bufferOffset_map]

lemma playDuration_map (ts : List TransitionPlan) (durs : List ℚ) (sk : Bool)
    (i : ℕ) :
    playDuration ⟨ts.map withDefaultCrossfade, durs, sk⟩ i =
      playDuration ⟨ts, durs, sk⟩ i := by
  unfold playDuration
  dsimp only
  simp only [List.length_map, durOf_map, bufferOffset_map, tEndOf_map]

lemma rampStart_map (ts : List TransitionPlan) (durs : List ℚ) (sk : Bool)
    (i : ℕ) :
    rampStart ⟨ts.map withDefaultCrossfade, durs, sk⟩ i =
      rampStart ⟨ts, durs, sk⟩ i := by
  unfold rampStart
  dsimp only
  simp only [List.length_map, trAt_map_start, startMixOf_map]

lemma rampEnd_map (ts : List TransitionPlan) (durs : List ℚ) (sk : Bool)
    (i : ℕ) :
    rampEnd ⟨ts.map withDefaultCrossfade, durs, sk⟩ i =
      rampEnd ⟨ts, durs, sk⟩ i := by
  unfold rampEnd
  dsimp only
  simp only [List.length_map, trAt_map_end, trAt_map_start, trAt_map_cf8,
    rampStart_map, durOf_map]

lemma gainAtMixTime_map (ts : List TransitionPlan) (durs : List ℚ) (sk : Bool)
    (i : ℕ) (t : ℚ) :
    gainAtMixTime ⟨ts.map withDefaultCrossfade, durs, sk⟩ i t =
      gainAtMixTime ⟨ts, durs, sk⟩ i t := by
  unfold gainAtMixTime
  dsimp only
  simp only [List.length_map, startMixOf_map, durOf_map, trAt_map_start,
    trAt_map_cf8]

lemma gainInRamp_map (ts : List TransitionPlan) (durs : List ℚ) (sk : Bool)
    (i : ℕ) :
    gainInRamp ⟨ts.map withDefaultCrossfade, durs, sk⟩ i =
      gainInRamp ⟨ts, durs, sk⟩ i := by
  unfold gainInRamp
  simp only [skipTo_map, startMixOf_map, startCtx_map, crossfadeInSec_map]

lemma gainOutRamp_map (ts : List TransitionPlan) (durs : List ℚ) (sk : Bool)
    (i : ℕ) :
    gainOutRamp ⟨ts.map withDefaultCrossfade, durs, sk⟩ i =
      gainOutRamp ⟨ts, durs, sk⟩ i := by
  unfold gainOutRamp
  dsimp only
  simp only [List.length_map, skipTo_map, rampStart_map, rampEnd_map]

lemma filterInSweep_map (ts : List TransitionPlan) (durs : List ℚ) (sk : Bool)
    (i : ℕ) :
    filterInSweep ⟨ts.map withDefaultCrossfade, durs, sk⟩ i =
      filterInSweep ⟨ts, durs, sk⟩ i := by
  unfold filterInSweep
  simp only [skipTo_map, startMixOf_map, startCtx_map, crossfadeInSec_map]

lemma filterOutSweep_map (ts : List TransitionPlan) (durs : List ℚ)
    (sk : Bool) (i : ℕ) :
    filterOutSweep ⟨ts.map withDefaultCrossfade, durs, sk⟩ i =
      filterOutSweep ⟨ts, durs, sk⟩ i := by
  unfold filterOutSweep
  dsimp only
  simp only [List.length_map, skipTo_map, rampStart_map, rampEnd_map]

lemma soundType_none_default (tr : TransitionPlan)
    (h : tr.transition_sound = none) : soundType tr = "whoosh" := by
  unfold soundType
  rw [h]
  decide

/-- C10: replacing every absent crossfade_duration_sec by the explicit
literal 8 changes nothing in the gain planner, the gain-in ramp, the
gain-out ramp, the filter sweeps, or the outgoing stop clamp -- so 8 is the
uniform default; and an absent transition_sound is treated as "whoosh" (a
cue is scheduled when a clip is available and the time is not past), never
as "none". -/
theorem default_crossfade_and_sound (ts : List TransitionPlan)
    (durs : List ℚ) (sk : Bool) (i : ℕ) (t : ℚ) (avail : String → Bool) :
    gainAtMixTime ⟨ts.map withDefaultCrossfade, durs, sk⟩ i t =
      gainAtMixTime ⟨ts, durs, sk⟩ i t ∧
    crossfadeInSec ⟨ts.map withDefaultCrossfade, durs, sk⟩ i =
      crossfadeInSec ⟨ts, durs, sk⟩ i ∧
    playDuration ⟨ts.map withDefaultCrossfade, durs, sk⟩ i =
      playDuration ⟨ts, durs, sk⟩ i ∧
    tEndOf ⟨ts.map withDefaultCrossfade, durs, sk⟩ i =
      tEndOf ⟨ts, durs, sk⟩ i ∧
    rampEnd ⟨ts.map withDefaultCrossfade, durs, sk⟩ i =
      rampEnd ⟨ts, durs, sk⟩ i ∧
    gainInRamp ⟨ts.map withDefaultCrossfade, durs, sk⟩ i =
      gainInRamp ⟨ts, durs, sk⟩ i ∧
    gainOutRamp ⟨ts.map withDefaultCrossfade, durs, sk⟩ i =
      gainOutRamp ⟨ts, durs, sk⟩ i ∧
    filterInSweep ⟨ts.map withDefaultCrossfade, durs, sk⟩ i =
      filterInSweep ⟨ts, durs, sk⟩ i ∧
    filterOutSweep ⟨ts.map withDefaultCrossfade, durs, sk⟩ i =
      filterOutSweep ⟨ts, durs, sk⟩ i ∧
    ((trAt ts i).transition_sound = none →
      avail "whoosh" = true →
      skipTo ⟨ts, durs, sk⟩ ≤ (mixStartTime ts).getD (i + 1) 0 →
      cueAt ⟨ts, durs, sk⟩ avail i =
        some ((mixStartTime ts).getD (i + 1) 0 - skipTo ⟨ts, durs, sk⟩,
          "whoosh")) := by
  refine ⟨gainAtMixTime_map ts durs sk i t, crossfadeInSec_map ts durs sk i,
    playDuration_map ts durs sk i, tEndOf_map ts durs sk i,
    rampEnd_map ts durs sk i, gainInRamp_map ts durs sk i,
    gainOutRamp_map ts durs sk i, filterInSweep_map ts durs sk i,
    filterOutSweep_map ts durs sk i, ?_⟩
  intro hsound havail hfuture
  have hw : soundType (trAt ts i) = "whoosh" := soundType_none_default _ hsound
  have := cueAt_eq_some ⟨ts, durs, sk⟩ avail i
    (by rw [hw]; decide) (by rw [hw]; exact havail) hfuture
  rw [hw] at this
  exact this

/-- Input with all defaults exercised: a transition with no crossfade and no
sound field. -/
def exC10 : PreviewInput :=
  ⟨[{ transition_start_time := some 150 }], [200, 180], false⟩

/-- C10 witness: on exC10 the defaulted plan coincides with the explicit-8
plan for the gain value at mix time 160 and for the gain-out ramp, and the
sound-less transition schedules a "whoosh" cue. -/
theorem default_crossfade_and_sound_witness :
    gainAtMixTime ⟨exC10.transitions.map withDefaultCrossfade,
      exC10.durations, false⟩ 0 160 = gainAtMixTime exC10 0 160 ∧
    gainOutRamp ⟨exC10.transitions.map withDefaultCrossfade,
      exC10.durations, false⟩ 0 = gainOutRamp exC10 0 ∧
    cueAt exC10 (fun _ => true) 0 =
      some ((mixStartTime exC10.transitions).getD 1 0 - skipTo exC10,
        "whoosh") :=
  ⟨(default_crossfade_and_sound exC10.transitions exC10.durations false 0 160
      (fun _ => true)).1,
   (default_crossfade_and_sound exC10.transitions exC10.durations false 0 160
      (fun _ => true)).2.2.2.2.2.2.1,
   (default_crossfade_and_sound exC10.transitions exC10.durations false 0 160
      (fun _ => true)).2.2.2.2.2.2.2.2.2 rfl rfl
     (by norm_num [skipTo, exC10, mixStartTime, mixStartTimeFrom])⟩

end DJMashAI
